import Mathlib

/-!
Verification of the streaming speech-recognition client
(`backend/services/voice_service.py`): a shallow embedding of the binary
frame codec, WAV-container parsing, audio segmentation, the sender's
sequence-number discipline, and transcript aggregation, together with
theorems settling the specified properties.

Bytes are modelled as `List Nat` (each entry a value `0..255`); Python
integers are `Int`/`Nat`; Python code that can raise returns
`Except PyErr _`, with a `PyErr` constructor for each exception class the
source can raise on the modelled paths.
-/

/-- The Python exception classes reachable in the modelled code. -/
inductive PyErr where
  /-- `IndexError`, raised by out-of-range indexing such as `msg[0]` on `b""`. -/
  | indexError
  /-- `struct.error`, raised by `struct.unpack`/`struct.pack` on wrong-size input. -/
  | structError
  /-- `ValueError(msg)`, raised by `read_wav_info` on malformed containers. -/
  | valueError (msg : String)
  /-- `ZeroDivisionError`, raised by `//` with a zero divisor. -/
  | zeroDivisionError
deriving DecidableEq, Repr

/-- Decoded JSON values, the result type of `json.loads`.
Numbers are modelled as integers (the protocol payloads in scope carry no
floats). -/
inductive Json where
  | null
  | bool (b : Bool)
  | num (n : Int)
  | str (s : String)
  | arr (items : List Json)
  | obj (fields : List (String × Json))

/-- Python `data[i]` on bytes: the byte, or `IndexError` when out of range. -/
def getByte (msg : List Nat) (i : Nat) : Except PyErr Nat :=
  match msg.get? i with
  | some b => .ok b
  | none => .error .indexError

/-- Python slice `data[start:stop]` on bytes (clamping, never raising). -/
def sliceBytes (data : List Nat) (start stop : Nat) : List Nat :=
  (data.take stop).drop start

/-- The four big-endian bytes of a 32-bit unsigned value (`struct.pack('>I', v)`). -/
def u32be (v : Nat) : List Nat :=
  [v / 16777216 % 256, v / 65536 % 256, v / 256 % 256, v % 256]

/-- `struct.pack('>i', n)`: big-endian two's-complement encoding of a signed
32-bit value; `struct.error` when `n` is out of range. -/
def pack_i32 (n : Int) : Except PyErr (List Nat) :=
  if -2147483648 ≤ n ∧ n < 2147483648 then
    .ok (u32be (n % 4294967296).toNat)
  else .error .structError

/-- `struct.pack('>I', n)`: big-endian encoding of an unsigned 32-bit value;
`struct.error` when `n` is out of range. -/
def pack_u32 (n : Nat) : Except PyErr (List Nat) :=
  if n < 4294967296 then .ok (u32be n) else .error .structError

/-- `struct.unpack('>i', l)[0]`: big-endian signed 32-bit decode;
`struct.error` unless `l` has exactly four bytes. -/
def unpack_i32 (l : List Nat) : Except PyErr Int :=
  match l with
  | [a, b, c, d] =>
    let v : Int := (a * 16777216 + b * 65536 + c * 256 + d : Nat)
    .ok (if v < 2147483648 then v else v - 4294967296)
  | _ => .error .structError

/-- `struct.unpack('>I', l)[0]`: big-endian unsigned 32-bit decode;
`struct.error` unless `l` has exactly four bytes. -/
def unpack_u32 (l : List Nat) : Except PyErr Nat :=
  match l with
  | [a, b, c, d] => .ok (a * 16777216 + b * 65536 + c * 256 + d)
  | _ => .error .structError

/-- `struct.unpack('<H', l)[0]`: little-endian unsigned 16-bit decode. -/
def unpack_le16 (l : List Nat) : Except PyErr Nat :=
  match l with
  | [a, b] => .ok (b * 256 + a)
  | _ => .error .structError

/-- `struct.unpack('<I', l)[0]`: little-endian unsigned 32-bit decode. -/
def unpack_le32 (l : List Nat) : Except PyErr Nat :=
  match l with
  | [a, b, c, d] => .ok (d * 16777216 + c * 65536 + b * 256 + a)
  | _ => .error .structError

/-- Model of the external `gzip.compress` library call (the source's
`CommonUtils.gzip_compress` delegates to it directly).  The model keeps the
behavioural facts the client code relies on: the compressed stream begins
with the fixed gzip magic bytes `0x1f 0x8b`, and `gzip_decompress` is its
exact inverse. -/
def gzip_compress (data : List Nat) : List Nat :=
  31 :: 139 :: data

/-- Model of the external `gzip.decompress` library call
(`CommonUtils.gzip_decompress`): inverts `gzip_compress`, and fails —
Python raises, the model returns `none` — on any stream that does not
begin with the gzip magic bytes `0x1f 0x8b`. -/
def gzip_decompress (data : List Nat) : Option (List Nat) :=
  match data with
  | a :: b :: rest => if a = 31 ∧ b = 139 then some rest else none
  | _ => none

/-- Whitespace skipping for the JSON reader. -/
def skipWs : List Char → List Char
  | [] => []
  | c :: rest =>
    if c = ' ' || c = '\n' || c = '\t' || c = '\r' then skipWs rest else c :: rest

/-- Read the body of a JSON string after the opening quote; the model has no
escape sequences (a backslash makes the parse fail). -/
def readStringChars : List Char → Option (List Char × List Char)
  | [] => none
  | c :: rest =>
    if c = '"' then some ([], rest)
    else if c = '\\' then none
    else match readStringChars rest with
      | some (s, r) => some (c :: s, r)
      | none => none

/-- Decimal value of a digit run. -/
def digitsVal (ds : List Char) : Nat :=
  ds.foldl (fun a c => a * 10 + (c.toNat - 48)) 0

/-- Read a JSON integer literal (optional minus sign, digit run).  A
following `.`, `e` or `E` makes the parse fail: the model covers integer
numerics only. -/
def readNumber (cs : List Char) : Option (Json × List Char) :=
  let (neg, cs2) : Bool × List Char :=
    match cs with
    | '-' :: rest => (true, rest)
    | _ => (false, cs)
  let ds := cs2.takeWhile Char.isDigit
  let rest := cs2.dropWhile Char.isDigit
  if ds = [] then none
  else match rest with
    | '.' :: _ => none
    | 'e' :: _ => none
    | 'E' :: _ => none
    | _ =>
      let v : Int := digitsVal ds
      some (.num (if neg then -v else v), rest)

mutual

/-- Fuel-bounded JSON value reader. -/
def readValue : Nat → List Char → Option (Json × List Char)
  | 0, _ => none
  | fuel + 1, cs =>
    match skipWs cs with
    | 'n' :: 'u' :: 'l' :: 'l' :: r => some (.null, r)
    | 't' :: 'r' :: 'u' :: 'e' :: r => some (.bool true, r)
    | 'f' :: 'a' :: 'l' :: 's' :: 'e' :: r => some (.bool false, r)
    | '"' :: r =>
      (match readStringChars r with
       | some (s, r2) => some (.str (String.mk s), r2)
       | none => none)
    | '[' :: r =>
      (match skipWs r with
       | ']' :: r2 => some (.arr [], r2)
       | _ =>
         match readItems fuel r with
         | some (xs, r2) => some (.arr xs, r2)
         | none => none)
    | '{' :: r =>
      (match skipWs r with
       | '}' :: r2 => some (.obj [], r2)
       | _ =>
         match readMembers fuel r with
         | some (xs, r2) => some (.obj xs, r2)
         | none => none)
    | c :: r =>
      if c = '-' || c.isDigit then readNumber (c :: r) else none
    | [] => none

/-- Fuel-bounded reader for the comma-separated items of a JSON array. -/
def readItems : Nat → List Char → Option (List Json × List Char)
  | 0, _ => none
  | fuel + 1, cs =>
    match readValue fuel cs with
    | none => none
    | some (v, r) =>
      match skipWs r with
      | ',' :: r2 =>
        (match readItems fuel r2 with
         | some (xs, r3) => some (v :: xs, r3)
         | none => none)
      | ']' :: r2 => some ([v], r2)
      | _ => none

/-- Fuel-bounded reader for the members of a JSON object. -/
def readMembers : Nat → List Char → Option (List (String × Json) × List Char)
  | 0, _ => none
  | fuel + 1, cs =>
    match skipWs cs with
    | '"' :: r =>
      (match readStringChars r with
       | none => none
       | some (k, r2) =>
         match skipWs r2 with
         | ':' :: r3 =>
           (match readValue fuel r3 with
            | none => none
            | some (v, r4) =>
              match skipWs r4 with
              | ',' :: r5 =>
                (match readMembers fuel r5 with
                 | some (xs, r6) => some ((String.mk k, v) :: xs, r6)
                 | none => none)
              | '}' :: r5 => some ([(String.mk k, v)], r5)
              | _ => none)
         | _ => none)
    | _ => none

end

/-- Model of the external `payload.decode('utf-8')` followed by
`json.loads` (the only way the source consumes its payload bytes).  The
model parses the ASCII fragment of JSON — objects, arrays, strings without
escapes, integers, `true`/`false`/`null` — and fails (`none`, where Python
raises the exception the caller catches) on anything else, including
non-ASCII bytes. -/
def json_loads (data : List Nat) : Option Json :=
  if data.all (· < 128) then
    let cs := data.map Char.ofNat
    match readValue (data.length + 1) cs with
    | some (v, rest) => if skipWs rest = [] then some v else none
    | none => none
  else none

/-! ## Protocol constants (`voice_service.py`, classes `ProtocolVersion`,
`MessageType`, `MessageTypeSpecificFlags`, `SerializationType`,
`CompressionType`). -/

def ProtocolVersion.V1 : Nat := 0b0001

def MessageType.CLIENT_FULL_REQUEST : Nat := 0b0001

def MessageType.CLIENT_AUDIO_ONLY_REQUEST : Nat := 0b0010

def MessageType.SERVER_FULL_RESPONSE : Nat := 0b1001

def MessageType.SERVER_ERROR_RESPONSE : Nat := 0b1111

def MessageTypeSpecificFlags.NO_SEQUENCE : Nat := 0b0000

def MessageTypeSpecificFlags.POS_SEQUENCE : Nat := 0b0001

def MessageTypeSpecificFlags.NEG_SEQUENCE : Nat := 0b0010

def MessageTypeSpecificFlags.NEG_WITH_SEQUENCE : Nat := 0b0011

def SerializationType.NO_SERIALIZATION : Nat := 0b0000

def SerializationType.JSON : Nat := 0b0001

def CompressionType.GZIP : Nat := 0b0001

/-- The outbound request header (`class AsrRequestHeader`). -/
structure AsrRequestHeader where
  message_type : Nat
  message_type_specific_flags : Nat
  serialization_type : Nat
  compression_type : Nat
  reserved_data : List Nat

/-- `AsrRequestHeader.__init__`: the field defaults of the builder. -/
def AsrRequestHeader.default_header : AsrRequestHeader :=
  { message_type := MessageType.CLIENT_FULL_REQUEST
    message_type_specific_flags := MessageTypeSpecificFlags.POS_SEQUENCE
    serialization_type := SerializationType.JSON
    compression_type := CompressionType.GZIP
    reserved_data := [0x00] }

/-- `AsrRequestHeader.with_message_type`. -/
def AsrRequestHeader.with_message_type (h : AsrRequestHeader) (mt : Nat) :
    AsrRequestHeader :=
  { h with message_type := mt }

/-- `AsrRequestHeader.with_message_type_specific_flags`. -/
def AsrRequestHeader.with_message_type_specific_flags (h : AsrRequestHeader)
    (flags : Nat) : AsrRequestHeader :=
  { h with message_type_specific_flags := flags }

/-- `AsrRequestHeader.to_bytes`: the four wire bytes of the header. -/
def AsrRequestHeader.to_bytes (h : AsrRequestHeader) : List Nat :=
  [(ProtocolVersion.V1 <<< 4) ||| 1,
   (h.message_type <<< 4) ||| h.message_type_specific_flags,
   (h.serialization_type <<< 4) ||| h.compression_type]
  ++ h.reserved_data

/-- `RequestBuilder.new_audio_only_request`: header (audio-only message
type; `NEG_WITH_SEQUENCE` flags and negated sequence when `is_last`, else
`POS_SEQUENCE`), 4-byte big-endian signed sequence, 4-byte big-endian
payload size, gzip-compressed segment. -/
def new_audio_only_request (seq : Int) (segment : List Nat) (is_last : Bool) :
    Except PyErr (List Nat) :=
  let flags := if is_last then MessageTypeSpecificFlags.NEG_WITH_SEQUENCE
               else MessageTypeSpecificFlags.POS_SEQUENCE
  let seqv := if is_last then -seq else seq
  let header :=
    ((AsrRequestHeader.default_header.with_message_type_specific_flags flags).with_message_type
      MessageType.CLIENT_AUDIO_ONLY_REQUEST)
  match pack_i32 seqv with
  | .error e => .error e
  | .ok seqBytes =>
    let compressed := gzip_compress segment
    match pack_u32 compressed.length with
    | .error e => .error e
    | .ok sizeBytes => .ok (header.to_bytes ++ seqBytes ++ sizeBytes ++ compressed)

/-- The decoded inbound frame (`class AsrResponse`), with the source's
initial field values as defaults. -/
structure AsrResponse where
  code : Int := 0
  event : Int := 0
  is_last_package : Bool := false
  payload_sequence : Int := 0
  payload_size : Nat := 0
  payload_msg : Option Json := none

/-- The header-nibble extraction at the top of
`ResponseParser.parse_response`: `(msg[0] & 0x0f, msg[1] >> 4, msg[1] & 0x0f,
msg[2] >> 4, msg[2] & 0x0f)` — header size in 4-byte words, message type,
message-type-specific flags, serialization method, compression method. -/
def decode_header_bytes (b0 b1 b2 : Nat) : Nat × Nat × Nat × Nat × Nat :=
  (b0 &&& 0x0f, b1 >>> 4, b1 &&& 0x0f, b2 >>> 4, b2 &&& 0x0f)

/-- `parse_response`, sequence-flag step: if flag bit 0 is set, consume a
4-byte signed sequence into `payload_sequence`. -/
def parse_flags_seq (flags : Nat) (r : AsrResponse) (payload : List Nat) :
    Except PyErr (AsrResponse × List Nat) :=
  if flags &&& 0x01 ≠ 0 then
    match unpack_i32 (payload.take 4) with
    | .ok v => .ok ({ r with payload_sequence := v }, payload.drop 4)
    | .error e => .error e
  else .ok (r, payload)

/-- `parse_response`, last-package step: flag bit 1 marks the response. -/
def set_last (flags : Nat) (r : AsrResponse) : AsrResponse :=
  if flags &&& 0x02 ≠ 0 then { r with is_last_package := true } else r

/-- `parse_response`, event step: if flag bit 2 is set, consume a 4-byte
signed event. -/
def parse_flags_event (flags : Nat) (r : AsrResponse) (payload : List Nat) :
    Except PyErr (AsrResponse × List Nat) :=
  if flags &&& 0x04 ≠ 0 then
    match unpack_i32 (payload.take 4) with
    | .ok v => .ok ({ r with event := v }, payload.drop 4)
    | .error e => .error e
  else .ok (r, payload)

/-- `parse_response`, message-type step: a full server response carries a
4-byte payload size; an error response carries a 4-byte signed code then a
4-byte payload size.  Other message types consume nothing. -/
def parse_mt (mt : Nat) (r : AsrResponse) (payload : List Nat) :
    Except PyErr (AsrResponse × List Nat) :=
  if mt = MessageType.SERVER_FULL_RESPONSE then
    match unpack_u32 (payload.take 4) with
    | .ok sz => .ok ({ r with payload_size := sz }, payload.drop 4)
    | .error e => .error e
  else if mt = MessageType.SERVER_ERROR_RESPONSE then
    match unpack_i32 (payload.take 4) with
    | .error e => .error e
    | .ok c =>
      match unpack_u32 ((payload.drop 4).take 4) with
      | .error e => .error e
      | .ok sz => .ok ({ r with code := c, payload_size := sz }, payload.drop 8)
  else .ok (r, payload)

/-- Everything of `ResponseParser.parse_response` before the payload
decompress/deserialize tail: header bytes, nibble fields, flag-driven and
message-type-driven field consumption.  Returns the response built so far,
the serialization and compression nibbles, and the remaining payload. -/
def parse_prelude (msg : List Nat) :
    Except PyErr (AsrResponse × Nat × Nat × List Nat) :=
  match getByte msg 0 with
  | .error e => .error e
  | .ok b0 =>
    match getByte msg 1 with
    | .error e => .error e
    | .ok b1 =>
      match getByte msg 2 with
      | .error e => .error e
      | .ok b2 =>
        match decode_header_bytes b0 b1 b2 with
        | (header_size, message_type, flags, serialization, compression) =>
          match parse_flags_seq flags {} (msg.drop (header_size * 4)) with
          | .error e => .error e
          | .ok (r1, p1) =>
            match parse_flags_event flags (set_last flags r1) p1 with
            | .error e => .error e
            | .ok (r2, p2) =>
              match parse_mt message_type r2 p2 with
              | .error e => .error e
              | .ok (r3, p3) => .ok (r3, serialization, compression, p3)

/-- The payload tail of `ResponseParser.parse_response`: an empty payload is
returned as-is; a gzip payload that fails to decompress is swallowed
(`except: return response`); a JSON payload that fails to parse is
swallowed likewise; a successful parse lands in `payload_msg`. -/
def finish_payload (r : AsrResponse) (serialization compression : Nat)
    (payload : List Nat) : AsrResponse :=
  if payload = [] then r
  else if compression = CompressionType.GZIP then
    match gzip_decompress payload with
    | none => r
    | some p2 =>
      if serialization = SerializationType.JSON then
        match json_loads p2 with
        | some j => { r with payload_msg := some j }
        | none => r
      else r
  else if serialization = SerializationType.JSON then
    match json_loads payload with
    | some j => { r with payload_msg := some j }
    | none => r
  else r

/-- `ResponseParser.parse_response`: full inbound-frame decode. -/
def parse_response (msg : List Nat) : Except PyErr AsrResponse :=
  match parse_prelude msg with
  | .error e => .error e
  | .ok (r, serialization, compression, payload) =>
    .ok (finish_payload r serialization compression payload)

/-- The chunking loop of `AsrWsClient.split_audio`
(`for i in range(0, len(data), segment_size): segments.append(data[i:i+segment_size])`,
with the end clamped to `len(data)`), phrased as the equivalent
take/drop recursion.  The `0` case never arises: the caller returns `[]`
before the loop when the segment size is not positive. -/
def splitChunks : Nat → List Nat → List (List Nat)
  | _, [] => []
  | 0, _ :: _ => []
  | sz + 1, x :: xs =>
    (x :: xs).take (sz + 1) :: splitChunks (sz + 1) ((x :: xs).drop (sz + 1))
termination_by _ data => data.length
decreasing_by simp; omega

/-- `AsrWsClient.split_audio`: no segments at all for a non-positive
segment size, otherwise consecutive clamped slices. -/
def split_audio (data : List Nat) (segment_size : Int) : List (List Nat) :=
  if segment_size ≤ 0 then [] else splitChunks segment_size.toNat data

/-- The frame sequence produced by `AsrWsClient.send_messages` from a
starting value of the session's `self.seq` counter: each segment is built
with the current counter (`is_last` exactly on the final segment), and the
counter is incremented after every non-final send. -/
def send_messages (seq : Int) : List (List Nat) → Except PyErr (List (List Nat))
  | [] => .ok []
  | [s] =>
    match new_audio_only_request seq s true with
    | .ok f => .ok [f]
    | .error e => .error e
  | s :: s2 :: rest =>
    match new_audio_only_request seq s false with
    | .error e => .error e
    | .ok f =>
      match send_messages (seq + 1) (s2 :: rest) with
      | .error e => .error e
      | .ok fs => .ok (f :: fs)

/-- The subchunk scan of `CommonUtils.read_wav_info`
(`while pos < len(data) - 8`): read a 4-byte id and 4-byte little-endian
size at `pos`; at the `data` subchunk compute the frame count — Python's
`//` raises `ZeroDivisionError` when `num_channels * (bits_per_sample // 8)`
is zero — and return; otherwise advance by `8 + subchunk_size`. -/
def wavLoop (data : List Nat) (num_channels sample_rate bits_per_sample : Nat)
    (pos : Nat) : Except PyErr (Nat × Nat × Nat × Nat × List Nat) :=
  if _h : pos < data.length - 8 then
    match unpack_le32 (sliceBytes data (pos + 4) (pos + 8)) with
    | .error e => .error e
    | .ok subchunk_size =>
      if sliceBytes data pos (pos + 4) = [100, 97, 116, 97] then
        if num_channels * (bits_per_sample / 8) = 0 then .error .zeroDivisionError
        else .ok (num_channels, bits_per_sample / 8, sample_rate,
                  subchunk_size / (num_channels * (bits_per_sample / 8)),
                  sliceBytes data (pos + 8) (pos + 8 + subchunk_size))
      else wavLoop data num_channels sample_rate bits_per_sample
             (pos + 8 + subchunk_size)
  else .error (.valueError "Invalid WAV file: no data subchunk found")
termination_by data.length - pos
decreasing_by omega

/-- `CommonUtils.read_wav_info`: length and RIFF/WAVE magic checks, the
fixed-offset fmt fields, then the subchunk scan from offset 36. -/
def read_wav_info (data : List Nat) :
    Except PyErr (Nat × Nat × Nat × Nat × List Nat) :=
  if data.length < 44 then .error (.valueError "Invalid WAV file: too short")
  else if sliceBytes data 0 4 ≠ [82, 73, 70, 70] then
    .error (.valueError "Invalid WAV file: not RIFF format")
  else if sliceBytes data 8 12 ≠ [87, 65, 86, 69] then
    .error (.valueError "Invalid WAV file: not WAVE format")
  else
    match unpack_le16 (sliceBytes data 20 22) with
    | .error e => .error e
    | .ok _audio_format =>
      match unpack_le16 (sliceBytes data 22 24) with
      | .error e => .error e
      | .ok num_channels =>
        match unpack_le32 (sliceBytes data 24 28) with
        | .error e => .error e
        | .ok sample_rate =>
          match unpack_le16 (sliceBytes data 34 36) with
          | .error e => .error e
          | .ok bits_per_sample =>
            wavLoop data num_channels sample_rate bits_per_sample 36

/-- Fuel-bounded mirror of the `read_wav_info` subchunk scan, recording
only whether a `data` subchunk is reached.  `fuel = data.length` always
suffices since every step advances `pos` by at least 8. -/
def hasDataChunkFrom (data : List Nat) : Nat → Nat → Bool
  | 0, _ => false
  | fuel + 1, pos =>
    if pos < data.length - 8 then
      if sliceBytes data pos (pos + 4) = [100, 97, 116, 97] then true
      else
        match unpack_le32 (sliceBytes data (pos + 4) (pos + 8)) with
        | .ok subchunk_size => hasDataChunkFrom data fuel (pos + 8 + subchunk_size)
        | .error _ => false
    else false

/-- Whether the `read_wav_info` scan, started at offset 36 as in the
source, reaches a `data` subchunk. -/
def hasDataChunk (data : List Nat) : Bool :=
  hasDataChunkFrom data data.length 36

/-- Python truthiness (`if response.payload_msg:`) for a decoded JSON
value: `None`, `False`, `0`, `""`, `[]` and `\x7b\x7d` are falsy. -/
def pyTruthy : Option Json → Bool
  | none => false
  | some .null => false
  | some (.bool b) => b
  | some (.num n) => n ≠ 0
  | some (.str s) => s ≠ ""
  | some (.arr items) => !items.isEmpty
  | some (.obj fields) => !fields.isEmpty

/-- Substring test on character lists (Python `key in someString`). -/
def strContains (needle : List Char) : List Char → Bool
  | [] => needle.isEmpty
  | c :: rest => needle.isPrefixOf (c :: rest) || strContains needle rest

/-- The Python `in` operator, `key in j`, for a decoded JSON value: key
membership for a dict, element equality for a list, substring for a
string, `TypeError` for anything else. -/
def pyIn (key : String) : Json → Except String Bool
  | .obj fields => .ok ((fields.lookup key).isSome)
  | .arr items => .ok (items.any fun x =>
      match x with
      | .str s => s = key
      | _ => false)
  | .str s => .ok (strContains key.toList s.toList)
  | _ => .error "TypeError: argument of type is not iterable"

/-- Python subscript `j[key]` with a string key: dict lookup, `TypeError`
for a list or string (string indices must be integers), `TypeError`
otherwise.  Only reached after a successful `in` test in the source, so
the dict lookup is present when used. -/
def pyGetItem (j : Json) (key : String) : Except String Json :=
  match j with
  | .obj fields =>
    match fields.lookup key with
    | some v => .ok v
    | none => .error "KeyError"
  | _ => .error "TypeError: indices must be integers"

/-- The inner `for res in result_data` body of `recognize_audio`'s list
branch: a dict with a `text` field overwrites the running transcript with
that field, a bare string overwrites with itself, anything else leaves it. -/
def itemUpd (full_text : Json) (res : Json) : Json :=
  match res with
  | .obj fields =>
    match fields.lookup "text" with
    | some t => t
    | none => full_text
  | .str s => .str s
  | _ => full_text

/-- One response step of the aggregation loop in `recognize_audio`:
a falsy payload is skipped; else if the payload contains `result`, the
list / dict-with-`text` / dict-with-`utterances` branches each overwrite
the running transcript as in the source.  Errors are the `TypeError`s
Python would raise on ill-shaped payloads. -/
def aggregate_step (full_text : Json) (r : AsrResponse) : Except String Json :=
  if pyTruthy r.payload_msg = false then .ok full_text
  else
    match r.payload_msg with
    | none => .ok full_text
    | some pm =>
      match pyIn "result" pm with
      | .error e => .error e
      | .ok false => .ok full_text
      | .ok true =>
        match pyGetItem pm "result" with
        | .error e => .error e
        | .ok result_data =>
          match result_data with
          | .arr items => .ok (items.foldl itemUpd full_text)
          | .obj fields =>
            (match fields.lookup "text" with
             | some t => .ok t
             | none =>
               match fields.lookup "utterances" with
               | some (.arr (u0 :: _)) =>
                 (match pyIn "text" u0 with
                  | .error e => .error e
                  | .ok true => pyGetItem u0 "text"
                  | .ok false => .ok full_text)
               | some _ => .ok full_text
               | none => .ok full_text)
          | _ => .ok full_text

/-- The transcript aggregation of `recognize_audio` over the decoded
responses, starting from the empty string. -/
def recognize_aggregate (rs : List AsrResponse) : Except String Json :=
  List.foldlM aggregate_step (Json.str "") rs

/-- The effect of a single response on the running transcript, separated
from the current value: `some t` when the response overwrites the
transcript with `t` regardless of its current value, `none` when it leaves
it unchanged, an error where `aggregate_step` errors. -/
def itemUpdOpt (acc : Option Json) (res : Json) : Option Json :=
  match res with
  | .obj fields =>
    match fields.lookup "text" with
    | some t => some t
    | none => acc
  | .str s => some (.str s)
  | _ => acc

/-- Response-level overwrite analysis used to state last-writer-wins. -/
def respUpdate (r : AsrResponse) : Except String (Option Json) :=
  if pyTruthy r.payload_msg = false then .ok none
  else
    match r.payload_msg with
    | none => .ok none
    | some pm =>
      match pyIn "result" pm with
      | .error e => .error e
      | .ok false => .ok none
      | .ok true =>
        match pyGetItem pm "result" with
        | .error e => .error e
        | .ok result_data =>
          match result_data with
          | .arr items => .ok (items.foldl itemUpdOpt none)
          | .obj fields =>
            (match fields.lookup "text" with
             | some t => .ok (some t)
             | none =>
               match fields.lookup "utterances" with
               | some (.arr (u0 :: _)) =>
                 (match pyIn "text" u0 with
                  | .error e => .error e
                  | .ok true =>
                    (match pyGetItem u0 "text" with
                     | .ok v => .ok (some v)
                     | .error e => .error e)
                  | .ok false => .ok none)
               | some _ => .ok none
               | none => .ok none)
          | _ => .ok none

/-! ## Helper lemmas -/

theorem u32be_length (v : Nat) : (u32be v).length = 4 := rfl

theorem unpack_u32_u32be (v : Nat) (h : v < 4294967296) :
    unpack_u32 (u32be v) = .ok v := by
  simp only [u32be, unpack_u32]
  congr 1
  omega

theorem unpack_i32_u32be (n : Int) (h1 : -2147483648 ≤ n) (h2 : n < 2147483648) :
    unpack_i32 (u32be (n % 4294967296).toNat) = .ok n := by
  have hmod : (0 : Int) ≤ n % 4294967296 ∧ n % 4294967296 < 4294967296 := by
    constructor <;> omega
  set m : Nat := (n % 4294967296).toNat with hm
  have hmlt : m < 4294967296 := by omega
  have hrecon : m / 16777216 % 256 * 16777216 + m / 65536 % 256 * 65536 +
      m / 256 % 256 * 256 + m % 256 = m := by omega
  simp only [u32be, unpack_i32, hrecon]
  rcases le_or_lt 0 n with hpos | hneg
  · have hmn : (m : Int) = n := by omega
    rw [if_pos (by omega)]
    exact congrArg Except.ok hmn
  · have hmn : (m : Int) = n + 4294967296 := by omega
    rw [if_neg (by omega)]
    exact congrArg Except.ok (by omega)

theorem pack_i32_ok (n : Int) (h1 : -2147483648 ≤ n) (h2 : n < 2147483648) :
    pack_i32 n = .ok (u32be (n % 4294967296).toNat) := by
  simp only [pack_i32, if_pos (And.intro h1 h2)]

theorem pack_u32_ok (n : Nat) (h : n < 4294967296) :
    pack_u32 n = .ok (u32be n) := by
  simp only [pack_u32, if_pos h]

/-- Packing a 4-bit value into the high nibble over a 4-bit low value and
reading both nibbles back, as the encoder and decoder do. -/
theorem nibble_roundtrip :
    ∀ hi < 16, ∀ lo < 16,
      ((hi <<< 4) ||| lo) >>> 4 = hi ∧ ((hi <<< 4) ||| lo) &&& 0x0f = lo := by
  decide

/-! ## Claims -/

/-- C3: the claim says every input shorter than the 4-byte minimum header
yields an `AsrResponse` without an unhandled fault; the code instead
raises `IndexError` already at `msg[0]` on the empty input (and
`struct.error` on other short inputs that set a flag bit), so the decoder
does crash on malformed short frames. -/
theorem c3_empty_frame_raises : parse_response [] = .error .indexError := rfl

/-- C5: for all valid 4-bit message-type, flags, serialization and
compression values, the 4-byte header built by `AsrRequestHeader.to_bytes`
(byte0 `(version<<4)|1`, byte1 `(messageType<<4)|flags`, byte2
`(serialization<<4)|compression`, byte3 `0`) is decoded by the
`parse_response` nibble extraction to exactly the same four field values,
and the header-word nibble yields a 4-byte header length. -/
theorem c5_header_roundtrip (mt fl ser comp : Nat)
    (hmt : mt < 16) (hfl : fl < 16) (hser : ser < 16) (hcomp : comp < 16) :
    let hdr : AsrRequestHeader :=
      { message_type := mt, message_type_specific_flags := fl,
        serialization_type := ser, compression_type := comp,
        reserved_data := [0x00] }
    let bs := hdr.to_bytes
    bs.length = 4 ∧ bs.getD 0 0 = 17 ∧ bs.getD 3 0 = 0 ∧
    decode_header_bytes (bs.getD 0 0) (bs.getD 1 0) (bs.getD 2 0)
      = (1, mt, fl, ser, comp) ∧
    (bs.getD 0 0 &&& 0x0f) * 4 = 4 := by
  intro hdr bs
  obtain ⟨hhi1, hlo1⟩ := nibble_roundtrip mt hmt fl hfl
  obtain ⟨hhi2, hlo2⟩ := nibble_roundtrip ser hser comp hcomp
  refine ⟨rfl, rfl, rfl, ?_, show (17 &&& 0x0f) * 4 = 4 from rfl⟩
  show (17 &&& 0x0f, ((mt <<< 4) ||| fl) >>> 4, ((mt <<< 4) ||| fl) &&& 0x0f,
        ((ser <<< 4) ||| comp) >>> 4, ((ser <<< 4) ||| comp) &&& 0x0f)
      = (1, mt, fl, ser, comp)
  rw [hhi1, hlo1, hhi2, hlo2]
  rfl

theorem c5_header_roundtrip_witness :
    decode_header_bytes
      ((AsrRequestHeader.to_bytes ⟨9, 3, 1, 1, [0x00]⟩).getD 0 0)
      ((AsrRequestHeader.to_bytes ⟨9, 3, 1, 1, [0x00]⟩).getD 1 0)
      ((AsrRequestHeader.to_bytes ⟨9, 3, 1, 1, [0x00]⟩).getD 2 0)
      = (1, 9, 3, 1, 1) :=
  (c5_header_roundtrip 9 3 1 1 (by decide) (by decide) (by decide)
    (by decide)).2.2.2.1

theorem splitChunks_nil (sz : Nat) : splitChunks sz [] = [] := by
  cases sz <;> simp [splitChunks]

theorem splitChunks_cons (sz : Nat) (x : Nat) (xs : List Nat) :
    splitChunks (sz + 1) (x :: xs)
      = (x :: xs).take (sz + 1) :: splitChunks (sz + 1) ((x :: xs).drop (sz + 1)) := by
  rw [splitChunks]

theorem splitChunks_cons_of_ne_nil (sz : Nat) (data : List Nat) (h : data ≠ []) :
    splitChunks (sz + 1) data
      = data.take (sz + 1) :: splitChunks (sz + 1) (data.drop (sz + 1)) := by
  cases data with
  | nil => exact absurd rfl h
  | cons x xs => exact splitChunks_cons sz x xs

theorem splitChunks_join (sz : Nat) :
    ∀ n (data : List Nat), data.length ≤ n →
      (splitChunks (sz + 1) data).flatten = data := by
  intro n
  induction n with
  | zero =>
    intro data h
    have hdata : data = [] := by
      cases data with
      | nil => rfl
      | cons x xs => simp at h
    subst hdata
    simp [splitChunks_nil]
  | succ n ih =>
    intro data h
    cases data with
    | nil => simp [splitChunks_nil]
    | cons x xs =>
      rw [splitChunks_cons]
      rw [List.flatten_cons]
      rw [ih ((x :: xs).drop (sz + 1))
        (by simp only [List.length_drop, List.length_cons] at h ⊢; omega)]
      exact List.take_append_drop (sz + 1) (x :: xs)

theorem splitChunks_chunk_len (sz : Nat) :
    ∀ n (data : List Nat), data.length ≤ n →
      ∀ c ∈ splitChunks (sz + 1) data, 0 < c.length ∧ c.length ≤ sz + 1 := by
  intro n
  induction n with
  | zero =>
    intro data h c hc
    have hdata : data = [] := by
      cases data with
      | nil => rfl
      | cons x xs => simp at h
    subst hdata
    simp [splitChunks_nil] at hc
  | succ n ih =>
    intro data h c hc
    cases data with
    | nil => simp [splitChunks_nil] at hc
    | cons x xs =>
      rw [splitChunks_cons] at hc
      rw [List.mem_cons] at hc
      rcases hc with hc | hc
      · subst hc
        simp only [List.length_take, List.length_cons]
        omega
      · exact ih ((x :: xs).drop (sz + 1))
          (by simp only [List.length_drop, List.length_cons] at h ⊢; omega) c hc

theorem splitChunks_dropLast_len (sz : Nat) :
    ∀ n (data : List Nat), data.length ≤ n →
      ∀ c ∈ (splitChunks (sz + 1) data).dropLast, c.length = sz + 1 := by
  intro n
  induction n with
  | zero =>
    intro data h c hc
    have hdata : data = [] := by
      cases data with
      | nil => rfl
      | cons x xs => simp at h
    subst hdata
    simp [splitChunks_nil] at hc
  | succ n ih =>
    intro data h c hc
    cases data with
    | nil => simp [splitChunks_nil] at hc
    | cons x xs =>
      rw [splitChunks_cons] at hc
      cases hrest : splitChunks (sz + 1) ((x :: xs).drop (sz + 1)) with
      | nil =>
        rw [hrest] at hc
        simp at hc
      | cons r rs =>
        rw [hrest] at hc
        rw [List.dropLast_cons_of_ne_nil (List.cons_ne_nil r rs)] at hc
        rw [List.mem_cons] at hc
        rcases hc with hc | hc
        · subst hc
          have hne : (x :: xs).drop (sz + 1) ≠ [] := by
            intro hdrop
            rw [hdrop, splitChunks_nil] at hrest
            exact List.noConfusion hrest
          have hlarge : sz + 1 < (x :: xs).length := by
            by_contra hlt
            exact hne (List.drop_eq_nil_of_le (by omega))
          simp only [List.length_take, List.length_cons] at hlarge ⊢
          omega
        · rw [← hrest] at hc
          exact ih ((x :: xs).drop (sz + 1))
            (by simp only [List.length_drop, List.length_cons] at h ⊢; omega) c hc

/-- C7: for a positive segment size, `split_audio` returns consecutive
non-overlapping slices that concatenate back to the whole input, each
non-empty and of at most the segment size, with every chunk before the
last of exactly the segment size; for a non-positive segment size it
returns no segments at all. -/
theorem c7_split_audio_correct (data : List Nat) (segment_size : Int) :
    (segment_size ≤ 0 → split_audio data segment_size = []) ∧
    (0 < segment_size →
      (split_audio data segment_size).flatten = data ∧
      (∀ c ∈ (split_audio data segment_size).dropLast,
        c.length = segment_size.toNat) ∧
      (∀ c ∈ split_audio data segment_size,
        0 < c.length ∧ c.length ≤ segment_size.toNat)) := by
  constructor
  · intro h
    simp [split_audio, if_pos h]
  · intro h
    have hnot : ¬ segment_size ≤ 0 := by omega
    obtain ⟨k, hk⟩ : ∃ k, segment_size.toNat = k + 1 :=
      ⟨segment_size.toNat - 1, by omega⟩
    simp only [split_audio, if_neg hnot, hk]
    exact ⟨splitChunks_join k data.length data le_rfl,
           splitChunks_dropLast_len k data.length data le_rfl,
           splitChunks_chunk_len k data.length data le_rfl⟩

theorem c7_split_audio_correct_witness :
    (split_audio [0, 1, 2] 2).flatten = [0, 1, 2] :=
  ((c7_split_audio_correct [0, 1, 2] 2).2 (by decide)).1

theorem splitChunks6400_map_len (data : List Nat) (h : data ≠ []) :
    (splitChunks 6400 data).map List.length
      = min 6400 data.length :: (splitChunks 6400 (data.drop 6400)).map List.length := by
  have h64 : (6400 : Nat) = 6399 + 1 := by norm_num
  rw [h64, splitChunks_cons_of_ne_nil 6399 data h]
  simp [List.length_take]

theorem split_audio_len_20000 (data : List Nat) (h : data.length = 20000) :
    (split_audio data 6400).map List.length = [6400, 6400, 6400, 800] := by
  have hl0 : data.length = 20000 := h
  have hl1 : (data.drop 6400).length = 13600 := by simp [h]
  have hl2 : ((data.drop 6400).drop 6400).length = 7200 := by simp [h]
  have hl3 : (((data.drop 6400).drop 6400).drop 6400).length = 800 := by simp [h]
  have hl4 : (((data.drop 6400).drop 6400).drop 6400).drop 6400 = [] := by
    have hz : ((((data.drop 6400).drop 6400).drop 6400).drop 6400).length = 0 := by
      simp [h]
    exact List.eq_nil_of_length_eq_zero hz
  have hn0 : data ≠ [] := by
    intro hh; rw [hh] at hl0; exact absurd hl0 (by decide)
  have hn1 : data.drop 6400 ≠ [] := by
    intro hh; rw [hh] at hl1; exact absurd hl1 (by decide)
  have hn2 : (data.drop 6400).drop 6400 ≠ [] := by
    intro hh; rw [hh] at hl2; exact absurd hl2 (by decide)
  have hn3 : ((data.drop 6400).drop 6400).drop 6400 ≠ [] := by
    intro hh; rw [hh] at hl3; exact absurd hl3 (by decide)
  have e0 : split_audio data 6400 = splitChunks 6400 data := by
    rw [split_audio, if_neg (by norm_num)]
    rfl
  rw [e0]
  rw [splitChunks6400_map_len data hn0, hl0]
  rw [splitChunks6400_map_len (data.drop 6400) hn1, hl1]
  rw [splitChunks6400_map_len ((data.drop 6400).drop 6400) hn2, hl2]
  rw [splitChunks6400_map_len (((data.drop 6400).drop 6400).drop 6400) hn3, hl3]
  rw [hl4, splitChunks_nil]
  decide

/-- C6, counterexample: on a concrete 20000-byte buffer, `split_audio`
with segment size 6400 does not yield chunk lengths
`[6400, 6400, 6400, 640]` as the claim states — the remainder chunk is
`20000 - 3*6400 = 800` bytes. -/
theorem c6_counterexample :
    (split_audio (List.replicate 20000 0) 6400).map List.length
      ≠ [6400, 6400, 6400, 640] := by
  rw [split_audio_len_20000 (List.replicate 20000 0)
    (by rw [List.length_replicate])]
  decide

/-- C6, amended: splitting a 20000-byte buffer with segment size 6400
yields exactly 4 ordered chunks whose lengths are
`[6400, 6400, 6400, 800]`. -/
theorem c6_split_20000 (data : List Nat) (h : data.length = 20000) :
    (split_audio data 6400).map List.length = [6400, 6400, 6400, 800] :=
  split_audio_len_20000 data h

theorem c6_split_20000_witness :
    (split_audio (List.replicate 20000 0) 6400).map List.length
      = [6400, 6400, 6400, 800] :=
  c6_split_20000 (List.replicate 20000 0) (by rw [List.length_replicate])

theorem sliceBytes_length (data : List Nat) (start stop : Nat)
    (h : stop ≤ data.length) : (sliceBytes data start stop).length = stop - start := by
  simp [sliceBytes]
  omega

theorem unpack_le16_ok (l : List Nat) (h : l.length = 2) :
    ∃ v, unpack_le16 l = .ok v := by
  cases l with
  | nil => simp at h
  | cons a t =>
    cases t with
    | nil => simp at h
    | cons b t2 =>
      cases t2 with
      | nil => exact ⟨b * 256 + a, rfl⟩
      | cons c t3 => simp at h

theorem unpack_le32_ok (l : List Nat) (h : l.length = 4) :
    ∃ v, unpack_le32 l = .ok v := by
  cases l with
  | nil => simp at h
  | cons a t =>
    cases t with
    | nil => simp at h
    | cons b t2 =>
      cases t2 with
      | nil => simp at h
      | cons c t3 =>
        cases t3 with
        | nil => simp at h
        | cons d t4 =>
          cases t4 with
          | nil => exact ⟨d * 16777216 + c * 65536 + b * 256 + a, rfl⟩
          | cons e t5 => simp at h

theorem wavLoop_zero_div (data : List Nat) (nc sr bps : Nat)
    (hden : nc * (bps / 8) = 0) :
    ∀ fuel pos, hasDataChunkFrom data fuel pos = true →
      wavLoop data nc sr bps pos = .error .zeroDivisionError := by
  intro fuel
  induction fuel with
  | zero =>
    intro pos h
    simp [hasDataChunkFrom] at h
  | succ fuel ih =>
    intro pos h
    simp only [hasDataChunkFrom] at h
    by_cases hpos : pos < data.length - 8
    · rw [if_pos hpos] at h
      rw [wavLoop]
      rw [dif_pos hpos]
      have hslice : (sliceBytes data (pos + 4) (pos + 8)).length = 4 := by
        rw [sliceBytes_length data (pos + 4) (pos + 8) (by omega)]
        omega
      obtain ⟨sz, hsz⟩ := unpack_le32_ok (sliceBytes data (pos + 4) (pos + 8)) hslice
      simp only [hsz] at h ⊢
      by_cases hid : sliceBytes data pos (pos + 4) = [100, 97, 116, 97]
      · rw [if_pos hid]
        rw [if_pos hden]
      · rw [if_neg hid] at h ⊢
        exact ih (pos + 8 + sz) h
    · rw [if_neg hpos] at h
      exact absurd h (by simp)

/-- C10: when a buffer passes the length and RIFF/WAVE magic checks and the
subchunk scan reaches a `data` subchunk, but the fmt header declares zero
channels or fewer than 8 bits per sample, `read_wav_info` raises
`ZeroDivisionError` from the frame-count division
`subchunk_size // (num_channels * (bits_per_sample // 8))` — not a normal
return and not the `ValueError` used for malformed containers. -/
theorem c10_read_wav_info_zero_division (data : List Nat)
    (hlen : 44 ≤ data.length)
    (hriff : sliceBytes data 0 4 = [82, 73, 70, 70])
    (hwave : sliceBytes data 8 12 = [87, 65, 86, 69])
    (nc bps : Nat)
    (hnc : unpack_le16 (sliceBytes data 22 24) = .ok nc)
    (hbps : unpack_le16 (sliceBytes data 34 36) = .ok bps)
    (hcond : nc = 0 ∨ bps < 8)
    (hdata : hasDataChunk data = true) :
    read_wav_info data = .error .zeroDivisionError := by
  have hden : nc * (bps / 8) = 0 := by
    rcases hcond with h | h
    · simp [h]
    · simp [Nat.div_eq_of_lt h]
  obtain ⟨af, haf⟩ := unpack_le16_ok (sliceBytes data 20 22)
    (by rw [sliceBytes_length data 20 22 (by omega)])
  obtain ⟨sr, hsr⟩ := unpack_le32_ok (sliceBytes data 24 28)
    (by rw [sliceBytes_length data 24 28 (by omega)])
  unfold read_wav_info
  rw [if_neg (by omega)]
  rw [if_neg (show ¬sliceBytes data 0 4 ≠ [82, 73, 70, 70] from
    fun hcon => hcon hriff)]
  rw [if_neg (show ¬sliceBytes data 8 12 ≠ [87, 65, 86, 69] from
    fun hcon => hcon hwave)]
  simp only [haf, hnc, hsr, hbps]
  exact wavLoop_zero_div data nc sr bps hden data.length 36 hdata

theorem c10_read_wav_info_zero_division_witness :
    read_wav_info
      [82, 73, 70, 70, 37, 0, 0, 0, 87, 65, 86, 69, 102, 109, 116, 32,
       16, 0, 0, 0, 1, 0, 0, 0, 128, 62, 0, 0, 0, 0, 0, 0, 0, 0, 16, 0,
       100, 97, 116, 97, 1, 0, 0, 0, 0]
      = .error .zeroDivisionError :=
  c10_read_wav_info_zero_division
    [82, 73, 70, 70, 37, 0, 0, 0, 87, 65, 86, 69, 102, 109, 116, 32,
     16, 0, 0, 0, 1, 0, 0, 0, 128, 62, 0, 0, 0, 0, 0, 0, 0, 0, 16, 0,
     100, 97, 116, 97, 1, 0, 0, 0, 0]
    (by decide) (by decide) (by decide) 0 16 rfl rfl
    (Or.inl rfl) (by decide)


theorem foldl_itemUpd_eq :
    ∀ (items : List Json) (o : Option Json) (ft : Json),
      items.foldl itemUpd (o.getD ft) = (items.foldl itemUpdOpt o).getD ft := by
  intro items
  induction items with
  | nil => intro o ft; rfl
  | cons res rest ih =>
    intro o ft
    rw [List.foldl_cons, List.foldl_cons]
    have hstep : itemUpd (o.getD ft) res = (itemUpdOpt o res).getD ft := by
      cases res with
      | obj fields =>
        cases hft : fields.lookup "text" with
        | some t => simp [itemUpd, itemUpdOpt, hft]
        | none => simp [itemUpd, itemUpdOpt, hft]
      | null => rfl
      | bool b => rfl
      | num n => rfl
      | str s => rfl
      | arr xs => rfl
    rw [hstep]
    exact ih (itemUpdOpt o res) ft

theorem aggregate_step_respUpdate (ft : Json) (r : AsrResponse) :
    aggregate_step ft r = (respUpdate r).map (fun o => o.getD ft) := by
  unfold aggregate_step respUpdate
  by_cases ht : pyTruthy r.payload_msg = false
  · rw [if_pos ht, if_pos ht]
    rfl
  · rw [if_neg ht, if_neg ht]
    cases hpm : r.payload_msg with
    | none => rfl
    | some pm =>
      split
      · rfl
      · next _ pm2 heq =>
        split
        · rfl
        · rfl
        · split
          · rfl
          · next rd heq2 =>
            cases rd with
            | null => rfl
            | bool b2 => rfl
            | num n => rfl
            | str s => rfl
            | arr items =>
              have hfold := foldl_itemUpd_eq items none ft
              simp only [Option.getD_none] at hfold
              simp [Except.map, hfold]
            | obj fields =>
              cases hft : fields.lookup "text" with
              | some t => simp [hft, Except.map]
              | none =>
                cases hutt : fields.lookup "utterances" with
                | none => simp [hft, hutt, Except.map]
                | some u =>
                  cases u with
                  | null => simp [hft, hutt, Except.map]
                  | bool b3 => simp [hft, hutt, Except.map]
                  | num n3 => simp [hft, hutt, Except.map]
                  | str s3 => simp [hft, hutt, Except.map]
                  | obj fs3 => simp [hft, hutt, Except.map]
                  | arr us =>
                    cases us with
                    | nil => simp [hft, hutt, Except.map]
                    | cons u0 urest =>
                      cases hin2 : pyIn "text" u0 with
                      | error e3 => simp [hft, hutt, hin2, Except.map]
                      | ok b2 =>
                        cases b2 with
                        | false => simp [hft, hutt, hin2, Except.map]
                        | true =>
                          cases hg2 : pyGetItem u0 "text" with
                          | error e4 => simp [hft, hutt, hin2, hg2, Except.map]
                          | ok v => simp [hft, hutt, hin2, hg2, Except.map]

theorem recognize_aggregate_append (rs : List AsrResponse) (r : AsrResponse) :
    recognize_aggregate (rs ++ [r])
      = recognize_aggregate rs >>= (fun s => aggregate_step s r) := by
  unfold recognize_aggregate
  rw [List.foldlM_append]
  simp

/-- C8: transcript aggregation in `recognize_audio` is last-writer-wins,
not concatenation: the aggregation starts from the empty string; appending
a response that carries extractable text `t` (per the source's
list-of-items, dict-with-`text` and dict-with-`utterances` branches, as
characterized by `respUpdate`) makes the aggregate `t` regardless of the
value accumulated so far, and appending a response that carries none
leaves the aggregate unchanged — so the returned transcript is whatever
the last overwrite left, the empty string if there was none. -/
theorem c8_aggregation_last_writer_wins :
    recognize_aggregate [] = .ok (Json.str "") ∧
    (∀ (rs : List AsrResponse) (r : AsrResponse) (t s : Json),
      respUpdate r = .ok (some t) → recognize_aggregate rs = .ok s →
      recognize_aggregate (rs ++ [r]) = .ok t) ∧
    (∀ (rs : List AsrResponse) (r : AsrResponse),
      respUpdate r = .ok none →
      recognize_aggregate (rs ++ [r]) = recognize_aggregate rs) := by
  refine ⟨rfl, ?_, ?_⟩
  · intro rs r t s hupd hagg
    rw [recognize_aggregate_append, hagg]
    show aggregate_step s r = .ok t
    rw [aggregate_step_respUpdate s r, hupd]
    rfl
  · intro rs r hupd
    rw [recognize_aggregate_append]
    cases hagg : recognize_aggregate rs with
    | error e => rfl
    | ok s =>
      show aggregate_step s r = .ok s
      rw [aggregate_step_respUpdate s r, hupd]
      rfl

theorem c8_aggregation_last_writer_wins_witness :
    recognize_aggregate
      [{ payload_msg :=
          some (Json.obj [("result", Json.obj [("text", Json.str "hello")])]) }]
      = .ok (Json.str "hello") := by
  have h := c8_aggregation_last_writer_wins.2.1 []
    { payload_msg :=
        some (Json.obj [("result", Json.obj [("text", Json.str "hello")])]) }
    (Json.str "hello") (Json.str "") rfl rfl
  simpa using h

theorem parse_flags_seq_msg (flags : Nat) (r r2 : AsrResponse) (p p2 : List Nat)
    (h : parse_flags_seq flags r p = .ok (r2, p2)) :
    r2.payload_msg = r.payload_msg := by
  unfold parse_flags_seq at h
  split at h
  · split at h
    · simp only [Except.ok.injEq, Prod.mk.injEq] at h
      rw [← h.1]
    · exact Except.noConfusion h
  · simp only [Except.ok.injEq, Prod.mk.injEq] at h
    rw [← h.1]

theorem set_last_msg (flags : Nat) (r : AsrResponse) :
    (set_last flags r).payload_msg = r.payload_msg := by
  unfold set_last
  split <;> rfl

theorem parse_flags_event_msg (flags : Nat) (r r2 : AsrResponse) (p p2 : List Nat)
    (h : parse_flags_event flags r p = .ok (r2, p2)) :
    r2.payload_msg = r.payload_msg := by
  unfold parse_flags_event at h
  split at h
  · split at h
    · simp only [Except.ok.injEq, Prod.mk.injEq] at h
      rw [← h.1]
    · exact Except.noConfusion h
  · simp only [Except.ok.injEq, Prod.mk.injEq] at h
    rw [← h.1]

theorem parse_mt_msg (mt : Nat) (r r2 : AsrResponse) (p p2 : List Nat)
    (h : parse_mt mt r p = .ok (r2, p2)) :
    r2.payload_msg = r.payload_msg := by
  unfold parse_mt at h
  split at h
  · split at h
    · simp only [Except.ok.injEq, Prod.mk.injEq] at h
      rw [← h.1]
    · exact Except.noConfusion h
  · split at h
    · split at h
      · exact Except.noConfusion h
      · split at h
        · exact Except.noConfusion h
        · simp only [Except.ok.injEq, Prod.mk.injEq] at h
          rw [← h.1]
    · simp only [Except.ok.injEq, Prod.mk.injEq] at h
      rw [← h.1]

theorem parse_prelude_payload_msg (msg : List Nat) (r : AsrResponse)
    (ser comp : Nat) (p : List Nat)
    (h : parse_prelude msg = .ok (r, ser, comp, p)) : r.payload_msg = none := by
  unfold parse_prelude at h
  split at h
  · exact Except.noConfusion h
  · split at h
    · exact Except.noConfusion h
    · split at h
      · exact Except.noConfusion h
      · simp only [decode_header_bytes] at h
        split at h
        · exact Except.noConfusion h
        · next r1 p1 heq1 =>
          split at h
          · exact Except.noConfusion h
          · next r2pair p2 heq2 =>
            split at h
            · exact Except.noConfusion h
            · next r3 p3 heq3 =>
              simp only [Except.ok.injEq, Prod.mk.injEq] at h
              obtain ⟨hr, hser, hcomp, hp⟩ := h
              subst hr
              rw [parse_mt_msg _ _ _ _ _ heq3,
                  parse_flags_event_msg _ _ _ _ _ heq2,
                  set_last_msg,
                  parse_flags_seq_msg _ _ _ _ _ heq1]

/-- C4: for an inbound frame whose header prelude parses, if the payload
fails gzip decompression, or decompresses but fails JSON parsing,
`parse_response` returns normally with `payload_msg` absent while keeping
every header-derived field already parsed (code, event, payload_sequence,
is_last_package, payload_size are exactly those of the prelude result);
such a frame never raises. -/
theorem c4_decode_failure_keeps_frame (msg : List Nat) (r : AsrResponse)
    (ser comp : Nat) (p : List Nat)
    (hpre : parse_prelude msg = .ok (r, ser, comp, p))
    (hne : p ≠ [])
    (hcomp : comp = CompressionType.GZIP)
    (hfail : gzip_decompress p = none ∨
      (∃ q, gzip_decompress p = some q ∧ ser = SerializationType.JSON ∧
        json_loads q = none)) :
    parse_response msg = .ok r ∧ r.payload_msg = none := by
  have hmsg := parse_prelude_payload_msg msg r ser comp p hpre
  refine ⟨?_, hmsg⟩
  unfold parse_response
  rw [hpre]
  show Except.ok (finish_payload r ser comp p) = Except.ok r
  congr 1
  unfold finish_payload
  rw [if_neg hne, if_pos hcomp]
  rcases hfail with hf | ⟨q, hq, hser, hjson⟩
  · simp only [hf]
  · simp only [hq]
    rw [if_pos hser]
    simp only [hjson]

theorem c4_decode_failure_keeps_frame_witness :
    parse_response [17, 0, 17, 0, 5] = .ok {} ∧
    ({} : AsrResponse).payload_msg = none :=
  c4_decode_failure_keeps_frame [17, 0, 17, 0, 5] {} 1 1 [5] rfl
    (by decide) rfl (Or.inl rfl)

theorem new_audio_only_request_false_ok (seq : Int) (segment : List Nat)
    (h1 : -2147483648 ≤ seq) (h2 : seq < 2147483648)
    (hz : (gzip_compress segment).length < 4294967296) :
    new_audio_only_request seq segment false
      = .ok ((([17, 33, 17, 0] ++ u32be (seq % 4294967296).toNat)
          ++ u32be (gzip_compress segment).length) ++ gzip_compress segment) := by
  unfold new_audio_only_request
  simp only [Bool.false_eq_true, if_false]
  rw [pack_i32_ok seq h1 h2, pack_u32_ok _ hz]
  rfl

theorem parse_prelude_audio (seq : Int)
    (h1 : -2147483648 ≤ seq) (h2 : seq < 2147483648) (tail : List Nat) :
    parse_prelude (([17, 33, 17, 0] ++ u32be (seq % 4294967296).toNat) ++ tail)
      = .ok ({ payload_sequence := seq }, 1, 1, tail) := by
  have e0 : getByte (([17, 33, 17, 0] ++ u32be (seq % 4294967296).toNat) ++ tail) 0
      = .ok 17 := rfl
  have e1 : getByte (([17, 33, 17, 0] ++ u32be (seq % 4294967296).toNat) ++ tail) 1
      = .ok 33 := rfl
  have e2 : getByte (([17, 33, 17, 0] ++ u32be (seq % 4294967296).toNat) ++ tail) 2
      = .ok 17 := rfl
  have d : decode_header_bytes 17 33 17 = (1, 2, 1, 1, 1) := rfl
  have edrop : (([17, 33, 17, 0] ++ u32be (seq % 4294967296).toNat) ++ tail).drop (1 * 4)
      = u32be (seq % 4294967296).toNat ++ tail := by
    rw [List.append_assoc]
    simp
  have etake : (u32be (seq % 4294967296).toNat ++ tail).take 4
      = u32be (seq % 4294967296).toNat := by
    simp [u32be]
  have edrop2 : (u32be (seq % 4294967296).toNat ++ tail).drop 4 = tail := by
    simp [u32be]
  have hu : unpack_i32 (u32be (seq % 4294967296).toNat) = .ok seq :=
    unpack_i32_u32be seq h1 h2
  simp only [parse_prelude, e0, e1, e2, d, edrop]
  simp only [parse_flags_seq, etake, edrop2, hu]
  simp only [if_pos (show (1 : Nat) &&& 0x01 ≠ 0 from by decide)]
  simp only [set_last, if_neg (show ¬((1 : Nat) &&& 0x02 ≠ 0) from by decide)]
  simp only [parse_flags_event, if_neg (show ¬((1 : Nat) &&& 0x04 ≠ 0) from by decide)]
  simp only [parse_mt,
    if_neg (show ¬((2 : Nat) = MessageType.SERVER_FULL_RESPONSE) from by decide),
    if_neg (show ¬((2 : Nat) = MessageType.SERVER_ERROR_RESPONSE) from by decide)]

/-- C1, counterexample: encoding an audio chunk (sequence 1, payload
`b"\x00"`) and decoding the frame yields `payload_msg = None` — the
original payload bytes are not recovered, because `parse_response` strips
the 4-byte payload-size prefix only for server message types (9 and 15),
so for a client audio frame the prefix stays glued to the compressed body
and gzip decompression fails. -/
theorem c1_counterexample :
    ((new_audio_only_request 1 [0] false).bind parse_response).map
      (fun r => r.payload_msg) = .ok none := rfl

/-- C1, amended: for every sequence in signed-32-bit range and every
payload whose compressed form is shorter than 2^24 bytes, encoding an
audio chunk and decoding the resulting frame recovers the original
sequence in `payload_sequence`, but the payload bytes are NOT recovered:
the length prefix left in the payload makes gzip decompression fail, so
`payload_msg` stays absent. -/
theorem c1_audio_roundtrip (seq : Int) (segment : List Nat)
    (h1 : -2147483648 ≤ seq) (h2 : seq < 2147483648)
    (hsmall : (gzip_compress segment).length < 16777216) :
    ((new_audio_only_request seq segment false).bind parse_response).map
      (fun r => (r.payload_sequence, r.payload_msg)) = .ok (seq, none) := by
  have hz : (gzip_compress segment).length < 4294967296 := by omega
  rw [new_audio_only_request_false_ok seq segment h1 h2 hz]
  have hassoc : ((([17, 33, 17, 0] ++ u32be (seq % 4294967296).toNat)
      ++ u32be (gzip_compress segment).length) ++ gzip_compress segment)
      = ([17, 33, 17, 0] ++ u32be (seq % 4294967296).toNat)
        ++ (u32be (gzip_compress segment).length ++ gzip_compress segment) := by
    rw [List.append_assoc]
  rw [hassoc]
  have hpre := parse_prelude_audio seq h1 h2
    (u32be (gzip_compress segment).length ++ gzip_compress segment)
  show (parse_response (([17, 33, 17, 0] ++ u32be (seq % 4294967296).toNat)
      ++ (u32be (gzip_compress segment).length ++ gzip_compress segment))).map
      (fun r => (r.payload_sequence, r.payload_msg)) = .ok (seq, none)
  simp only [parse_response, hpre]
  have hfin : finish_payload { payload_sequence := seq } 1 1
      (u32be (gzip_compress segment).length ++ gzip_compress segment)
      = ({ payload_sequence := seq } : AsrResponse) := by
    have hdiv : (gzip_compress segment).length / 16777216 = 0 :=
      Nat.div_eq_of_lt hsmall
    have hdec : gzip_decompress
        (u32be (gzip_compress segment).length ++ gzip_compress segment) = none := by
      simp [u32be, gzip_decompress, hdiv]
    unfold finish_payload
    rw [if_neg (by simp [u32be])]
    rw [if_pos (show (1 : Nat) = CompressionType.GZIP from rfl)]
    simp only [hdec]
  rw [hfin]
  rfl

theorem c1_audio_roundtrip_witness :
    ((new_audio_only_request 7 [1, 2, 3] false).bind parse_response).map
      (fun r => (r.payload_sequence, r.payload_msg)) = .ok (7, none) :=
  c1_audio_roundtrip 7 [1, 2, 3] (by decide) (by decide) (by decide)

theorem new_audio_only_request_true_ok (seq : Int) (segment : List Nat)
    (h1 : -2147483648 ≤ -seq) (h2 : -seq < 2147483648)
    (hz : (gzip_compress segment).length < 4294967296) :
    new_audio_only_request seq segment true
      = .ok ((([17, 35, 17, 0] ++ u32be ((-seq) % 4294967296).toNat)
          ++ u32be (gzip_compress segment).length) ++ gzip_compress segment) := by
  unfold new_audio_only_request
  simp only [eq_self_iff_true, if_true]
  rw [pack_i32_ok (-seq) h1 h2, pack_u32_ok _ hz]
  rfl

theorem audio_frame_fields_false (seq : Int) (segment : List Nat)
    (h1 : -2147483648 ≤ seq) (h2 : seq < 2147483648)
    (hz : (gzip_compress segment).length < 4294967296) :
    ∃ f, new_audio_only_request seq segment false = .ok f ∧
      f.get? 1 = some ((MessageType.CLIENT_AUDIO_ONLY_REQUEST <<< 4) |||
        MessageTypeSpecificFlags.POS_SEQUENCE) ∧
      unpack_i32 ((f.drop 4).take 4) = .ok seq := by
  refine ⟨_, new_audio_only_request_false_ok seq segment h1 h2 hz, rfl, ?_⟩
  have hdt : (((([17, 33, 17, 0] ++ u32be (seq % 4294967296).toNat)
      ++ u32be (gzip_compress segment).length) ++ gzip_compress segment).drop 4).take 4
      = u32be (seq % 4294967296).toNat := by
    simp [u32be]
  rw [hdt]
  exact unpack_i32_u32be seq h1 h2

theorem audio_frame_fields_true (seq : Int) (segment : List Nat)
    (h1 : -2147483648 ≤ -seq) (h2 : -seq < 2147483648)
    (hz : (gzip_compress segment).length < 4294967296) :
    ∃ f, new_audio_only_request seq segment true = .ok f ∧
      f.get? 1 = some ((MessageType.CLIENT_AUDIO_ONLY_REQUEST <<< 4) |||
        MessageTypeSpecificFlags.NEG_WITH_SEQUENCE) ∧
      unpack_i32 ((f.drop 4).take 4) = .ok (-seq) := by
  refine ⟨_, new_audio_only_request_true_ok seq segment h1 h2 hz, rfl, ?_⟩
  have hdt : (((([17, 35, 17, 0] ++ u32be ((-seq) % 4294967296).toNat)
      ++ u32be (gzip_compress segment).length) ++ gzip_compress segment).drop 4).take 4
      = u32be ((-seq) % 4294967296).toNat := by
    simp [u32be]
  rw [hdt]
  exact unpack_i32_u32be (-seq) h1 h2

/-- C2, amended: streaming segments from counter value `seq0` (2 in the
session flow: the counter starts at 1 and the initial full-config request
consumes sequence 1), every non-final chunk `i` carries flags
`POS_SEQUENCE` and sequence `seq0 + i`, increasing by 1 per send; the
final chunk's frame sets both the last-package and sequence flag bits
(`NEG_WITH_SEQUENCE = 0b0011`) and its 4-byte encoded sequence value is
the negation of `seq0 + (n-1)` — i.e. the negation of ONE PLUS the
sequence used for the last non-final chunk (the counter is incremented
after every non-final send and the final chunk uses the incremented
value), not the negation of the last non-final sequence itself. -/
theorem c2_send_messages_sequencing (seq0 : Int) (segs : List (List Nat))
    (frames : List (List Nat))
    (h0 : 0 ≤ seq0) (hmax : seq0 + segs.length ≤ 2147483648)
    (hsegs : ∀ s ∈ segs, (gzip_compress s).length < 4294967296)
    (hok : send_messages seq0 segs = .ok frames) :
    frames.length = segs.length ∧
    ∀ i f, frames.get? i = some f →
      ((i + 1 = segs.length →
          f.get? 1 = some ((MessageType.CLIENT_AUDIO_ONLY_REQUEST <<< 4) |||
            MessageTypeSpecificFlags.NEG_WITH_SEQUENCE) ∧
          unpack_i32 ((f.drop 4).take 4) = .ok (-(seq0 + i))) ∧
       (i + 1 < segs.length →
          f.get? 1 = some ((MessageType.CLIENT_AUDIO_ONLY_REQUEST <<< 4) |||
            MessageTypeSpecificFlags.POS_SEQUENCE) ∧
          unpack_i32 ((f.drop 4).take 4) = .ok (seq0 + i))) := by
  induction segs generalizing seq0 frames with
  | nil =>
    unfold send_messages at hok
    simp only [Except.ok.injEq] at hok
    subst hok
    exact ⟨rfl, by intro i f hf; simp at hf⟩
  | cons s rest ih =>
    cases rest with
    | nil =>
      obtain ⟨f0, hf0, hb1, hseq⟩ := audio_frame_fields_true seq0 s
        (by omega) (by omega)
        (hsegs s (List.mem_cons_self s []))
      unfold send_messages at hok
      rw [hf0] at hok
      simp only [Except.ok.injEq] at hok
      subst hok
      refine ⟨rfl, ?_⟩
      intro i f hf
      cases i with
      | zero =>
        simp only [List.get?] at hf
        cases hf
        constructor
        · intro _
          refine ⟨hb1, ?_⟩
          simpa using hseq
        · intro hlt
          simp at hlt
      | succ j =>
        simp at hf
    | cons s2 rest2 =>
      obtain ⟨f0, hf0, hb1, hseq⟩ := audio_frame_fields_false seq0 s
        (by omega) (by simp at hmax; omega)
        (hsegs s (List.mem_cons_self s (s2 :: rest2)))
      unfold send_messages at hok
      rw [hf0] at hok
      cases hrec : send_messages (seq0 + 1) (s2 :: rest2) with
      | error e =>
        rw [hrec] at hok
        exact Except.noConfusion hok
      | ok frames2 =>
        rw [hrec] at hok
        simp only [Except.ok.injEq] at hok
        subst hok
        have hih := ih (seq0 + 1) frames2 (by omega)
          (by simp at hmax ⊢; omega)
          (fun s' hs' => hsegs s' (List.mem_cons_of_mem s hs'))
          hrec
        obtain ⟨hlen2, hprop2⟩ := hih
        refine ⟨by simp [hlen2], ?_⟩
        intro i f hf
        cases i with
        | zero =>
          simp only [List.get?] at hf
          cases hf
          constructor
          · intro habs
            simp at habs
          · intro _
            refine ⟨hb1, ?_⟩
            simpa using hseq
        | succ j =>
          simp only [List.get?] at hf
          have hj := hprop2 j f hf
          constructor
          · intro hfin
            have hj1 : j + 1 = (s2 :: rest2).length := by
              simp at hfin ⊢
              omega
            obtain ⟨hb, hs⟩ := hj.1 hj1
            refine ⟨hb, ?_⟩
            have hcast : (seq0 + 1) + (j : Int) = seq0 + ((j + 1 : Nat) : Int) := by
              push_cast
              ring
            rw [hcast] at hs
            exact hs
          · intro hlt
            have hj1 : j + 1 < (s2 :: rest2).length := by
              simp at hlt ⊢
              omega
            obtain ⟨hb, hs⟩ := hj.2 hj1
            refine ⟨hb, ?_⟩
            have hcast : (seq0 + 1) + (j : Int) = seq0 + ((j + 1 : Nat) : Int) := by
              push_cast
              ring
            rw [hcast] at hs
            exact hs

/-- C2, counterexample: streaming the two segments `[b"\x00", b"\x01"]`
from counter value 2, the last non-final chunk carries sequence 2 but the
final chunk encodes -3, not -2 — the final frame does not reuse the last
non-final sequence negated. -/
theorem c2_counterexample :
    (send_messages 2 [[0], [1]]).map
      (fun fs => fs.map (fun f => unpack_i32 ((f.drop 4).take 4)))
      = .ok [.ok 2, .ok (-3)] ∧ (-3 : Int) ≠ -2 := by
  constructor
  · rfl
  · decide

theorem c2_send_messages_sequencing_witness :
    ([17, 35, 17, 0, 255, 255, 255, 253, 0, 0, 0, 3, 31, 139, 6] : List Nat).get? 1
        = some ((MessageType.CLIENT_AUDIO_ONLY_REQUEST <<< 4) |||
          MessageTypeSpecificFlags.NEG_WITH_SEQUENCE) ∧
    unpack_i32
      ((([17, 35, 17, 0, 255, 255, 255, 253, 0, 0, 0, 3, 31, 139, 6] : List Nat).drop 4).take 4)
        = .ok (-3) := by
  have h := (c2_send_messages_sequencing 2 [[5], [6]]
    [[17, 33, 17, 0, 0, 0, 0, 2, 0, 0, 0, 3, 31, 139, 5],
     [17, 35, 17, 0, 255, 255, 255, 253, 0, 0, 0, 3, 31, 139, 6]]
    (by decide) (by decide) (by decide) rfl).2 1
    [17, 35, 17, 0, 255, 255, 255, 253, 0, 0, 0, 3, 31, 139, 6] rfl
  obtain ⟨hb, hs⟩ := h.1 (by decide)
  refine ⟨hb, ?_⟩
  simpa using hs
